import Mathlib

/-!
Verification of the positional-embedding subsystem of
`cosmos_transfer1/diffusion/module/position_embedding.py`.

Scalars are modelled by `ℚ`; the transcendental operations that the source
applies to them (`torch.cos`, `torch.sin`, floating-point power `**`) are kept
abstract as a record of functions `RealOps`, so every definition stays
executable and the layout / indexing logic of the source is captured exactly.
The module-level flag `use_TE` is `False` in the source, so the `use_TE`
branches are dead code and only the reachable branches are embedded.
-/

/-- Abstract interface for the transcendental scalar functions used by the
source (`cos`, `sin`, and the float power `a ** b`). -/
structure RealOps where
  rcos : ℚ → ℚ
  rsin : ℚ → ℚ
  rpow : ℚ → ℚ → ℚ

/-- A concrete instantiation of `RealOps` used only to evaluate closed
statements (`rcos = 0`, `rsin = id`, `rpow = 1`). -/
def defaultOps : RealOps :=
  { rcos := fun _ => 0, rsin := id, rpow := fun _ _ => 1 }

/-- Model of `np.arange(n)` as a list of rationals. -/
def arange (n : ℕ) : List ℚ := (List.range n).map (Nat.cast : ℕ → ℚ)

/-- Model of `torch.outer` alias `np.einsum m,d->md`: outer product of two vectors. -/
def torchOuter (a b : List ℚ) : List (List ℚ) :=
  a.map (fun x => b.map (fun y => x * y))

/-- Source `get_1d_sincos_pos_embed_from_grid(embed_dim, pos)` (lines 50-68).
`assert embed_dim % 2 == 0`; `omega = arange(embed_dim//2) / (embed_dim/2)`;
`omega = 1.0 / 10000**omega`; `out = einsum("m,d->md", pos, omega)`;
result rows are `sin(out)` concatenated with `cos(out)` along axis 1. -/
def get_1d_sincos_pos_embed_from_grid (ops : RealOps) (embed_dim : ℕ)
    (pos : List ℚ) : Option (List (List ℚ)) :=
  if embed_dim % 2 = 0 then
    let omega : List ℚ := (List.range (embed_dim / 2)).map
      (fun k : ℕ => 1 / ops.rpow 10000 ((k : ℚ) / ((embed_dim / 2 : ℕ) : ℚ)))
    some (pos.map (fun p =>
      (omega.map (fun w => ops.rsin (p * w))) ++ (omega.map (fun w => ops.rcos (p * w)))))
  else
    none

/-- Flattened (row-major) form of `np.meshgrid(grid_w, grid_h, grid_t,
indexing="ij")[0]`: the mesh arrays have shape `(W, H, T)` and the subsequent
`reshape(3, 1, H, W, T)` does not change row-major element order, so only the
flat sequences matter.  `m0[f] = grid_w[f / (H*T)]`. -/
def meshFlat0 (grid_w grid_h grid_t : List ℚ) : List ℚ :=
  grid_w.flatMap (fun x => List.replicate (grid_h.length * grid_t.length) x)

/-- Flattened `meshgrid(...)[1]`: `m1[f] = grid_h[(f / T) % H]`. -/
def meshFlat1 (grid_w grid_h grid_t : List ℚ) : List ℚ :=
  (List.replicate grid_w.length
    (grid_h.flatMap (fun y => List.replicate grid_t.length y))).flatten

/-- Flattened `meshgrid(...)[2]`: `m2[f] = grid_t[f % T]`. -/
def meshFlat2 (grid_w grid_h grid_t : List ℚ) : List ℚ :=
  (List.replicate (grid_w.length * grid_h.length) grid_t).flatten

/-- Source `get_3d_sincos_pos_embed(embed_dim, grid_size_h, grid_size_w, grid_size_t,
spatial_interpolation_scale, temporal_interpolation_scale, concat)`
(lines 71-103).  Note that the source builds `np.meshgrid(grid_w, grid_h,
grid_t, indexing="ij")` (mesh shape `(W, H, T)`) and then *reshapes* — without
transposing — to `(3, 1, H, W, T)`, and that `emb_h` is computed from
`grid[0]` (the `grid_w` mesh) while `emb_w` is computed from `grid[1]`
(the `grid_h` mesh). -/
def get_3d_sincos_pos_embed (ops : RealOps) (embed_dim : ℕ)
    (grid_size_h grid_size_w grid_size_t : ℕ)
    (spatial_interpolation_scale temporal_interpolation_scale : ℚ)
    (concat : Bool) : Option (List (List ℚ)) :=
  let grid_h := (arange grid_size_h).map (fun x => x / spatial_interpolation_scale)
  let grid_w := (arange grid_size_w).map (fun x => x / spatial_interpolation_scale)
  let grid_t := (arange grid_size_t).map (fun x => x / temporal_interpolation_scale)
  let m0 := meshFlat0 grid_w grid_h grid_t
  let m1 := meshFlat1 grid_w grid_h grid_t
  let m2 := meshFlat2 grid_w grid_h grid_t
  if concat then
    let per_axis := embed_dim / 3 / 2 * 2
    let dim_h := per_axis
    let dim_w := per_axis
    let dim_t := embed_dim - dim_h - dim_w
    do
      let emb_h ← get_1d_sincos_pos_embed_from_grid ops dim_h m0
      let emb_w ← get_1d_sincos_pos_embed_from_grid ops dim_w m1
      let emb_t ← get_1d_sincos_pos_embed_from_grid ops dim_t m2
      pure (List.zipWith (fun a b => a ++ b) (List.zipWith (fun a b => a ++ b) emb_h emb_w) emb_t)
  else do
    let emb_h ← get_1d_sincos_pos_embed_from_grid ops embed_dim m0
    let emb_w ← get_1d_sincos_pos_embed_from_grid ops embed_dim m1
    let emb_t ← get_1d_sincos_pos_embed_from_grid ops embed_dim m2
    pure (List.zipWith (List.zipWith (fun x y => x + y))
      (List.zipWith (List.zipWith (fun x y => x + y)) emb_h emb_w) emb_t)

/-- Modelled from the spec: the claimed row ordering of the 3D sinusoidal
table — row `h*(W*T) + w*T + t` holds the concatenation of the `dim_h`-wide
code of coordinate `h`, the `dim_w`-wide code of coordinate `w` and the
`dim_t`-wide code of coordinate `t` (H the outer, slowest-varying index),
which is what the downstream `rearrange(param, "(h w t) c -> 1 t h w c",
h=len_h, w=len_w)` in `SinCosPosEmb.__init__` assumes. -/
def sincos3dRowSpec (ops : RealOps) (embed_dim : ℕ)
    (grid_size_h grid_size_w grid_size_t : ℕ)
    (spatial_interpolation_scale temporal_interpolation_scale : ℚ) :
    Option (List (List ℚ)) :=
  let per_axis := embed_dim / 3 / 2 * 2
  let dim_h := per_axis
  let dim_w := per_axis
  let dim_t := embed_dim - dim_h - dim_w
  do
    let emb_h ← get_1d_sincos_pos_embed_from_grid ops dim_h
      ((arange grid_size_h).map (fun x => x / spatial_interpolation_scale))
    let emb_w ← get_1d_sincos_pos_embed_from_grid ops dim_w
      ((arange grid_size_w).map (fun x => x / spatial_interpolation_scale))
    let emb_t ← get_1d_sincos_pos_embed_from_grid ops dim_t
      ((arange grid_size_t).map (fun x => x / temporal_interpolation_scale))
    pure (emb_h.flatMap (fun rh => emb_w.flatMap (fun rw => emb_t.map (fun rt =>
      rh ++ rw ++ rt))))

/-- The axis-dim partition `dim_h = dim // 6 * 2` shared by
`VideoRopePosition3DEmb.__init__` (line 192), `SinCosPosEmbAxis.__init__`
(line 483) and the multi-camera variants. -/
def dim_h_of (dim : ℕ) : ℕ := dim / 6 * 2

/-- Split `dim_w = dim_h` (line 193). -/
def dim_w_of (dim : ℕ) : ℕ := dim_h_of dim

/-- Split `dim_t = dim - 2 * dim_h` (line 194). -/
def dim_t_of (dim : ℕ) : ℕ := dim - 2 * dim_h_of dim

/-- The construction-time check `assert dim == dim_h + dim_w + dim_t`
(lines 195, 486, 757, 911). -/
def axisDimAssert (dim : ℕ) : Bool :=
  dim == dim_h_of dim + dim_w_of dim + dim_t_of dim

/-- The frequency band `1.0 / (theta ** dim_range)` where
`dim_range = arange(0, dim_axis, 2)[: dim_axis // 2] / dim_axis`,
i.e. entry `i` (for `i < dim_axis / 2`) is `1 / theta ** (2*i / dim_axis)`
(lines 196-205 together with 240-242). -/
def freqBand (ops : RealOps) (theta : ℚ) (dim_axis : ℕ) : List ℚ :=
  (List.range (dim_axis / 2)).map
    (fun i : ℕ => 1 / ops.rpow theta (((2 * i : ℕ) : ℚ) / (dim_axis : ℚ)))

/-- The optional frames-per-second argument: `None`, a python scalar, or a
1-D tensor (one value per batch element). -/
inductive Fps where
  | noneFps : Fps
  | scalar : ℚ → Fps
  | tensor : List ℚ → Fps
deriving DecidableEq

/-- Check `uniform_fps = (fps is None) or isinstance(fps, (int, float)) or
(fps.min() == fps.max())` (line 245).  `min()` of an empty tensor raises, so
that case yields `none`. -/
def uniformFpsCheck : Fps → Option Bool
  | Fps.noneFps => some true
  | Fps.scalar _ => some true
  | Fps.tensor [] => none
  | Fps.tensor (x :: xs) => some (xs.all (fun y => y == x))

/-- Torch broadcasting of the elementwise division of two 1-D tensors:
defined when the lengths match or either length is 1, a `RuntimeError`
(`none`) otherwise. -/
def broadcastDiv (a b : List ℚ) : Option (List ℚ) :=
  if a.length = b.length then some (List.zipWith (fun x y => x / y) a b)
  else if b.length = 1 then some (a.map (fun x => x / b.headD 0))
  else if a.length = 1 then some (b.map (fun y => a.headD 0 / y))
  else none

/-- Model of `torch.stack([cos(e), -sin(e), sin(e), cos(e)], dim=-1)` applied to a 2-D
half-embedding (lines 281-283). -/
def stack4 (ops : RealOps) (m : List (List ℚ)) : List (List (List ℚ)) :=
  m.map (fun row => row.map
    (fun x => [ops.rcos x, -ops.rsin x, ops.rsin x, ops.rcos x]))

/-- The rearrange step `d (i j) -> d i j with i=2, j=2` applied to one
length-4 channel vector (line 294). -/
def chunk22 (l : List ℚ) : List (List ℚ) := [l.take 2, l.drop 2]

/-- A 2x2 rotation block `[[cos x, -sin x], [sin x, cos x]]`. -/
def rotBlock (ops : RealOps) (x : ℚ) : List (List ℚ) :=
  [[ops.rcos x, -ops.rsin x], [ops.rsin x, ops.rcos x]]

/-- The exponent `dim_axis / (dim_axis - 2)` of the NTK factor
(lines 207-209).  `dim_axis` is a python int, so the division raises
`ZeroDivisionError` exactly when `dim_axis == 2`. -/
def ntkExponentOpt (d : ℕ) : Option ℚ :=
  if d = 2 then none else some ((d : ℚ) / ((d : ℚ) - 2))

/-- State registered by `VideoRopePosition3DEmb.__init__` (lines 170-209):
`seq = arange(max(len_h, len_w, len_t))` is recomputed on demand from the
stored lengths; `max_h = len_h`, `max_w = len_w`; the NTK factors are the
resolved `extrapolation_ratio ** (dim / (dim - 2))` values. -/
structure VideoRopePosition3DEmb where
  head_dim : ℕ
  len_h : ℕ
  len_w : ℕ
  len_t : ℕ
  base_fps : ℚ
  h_ntk_factor : ℚ
  w_ntk_factor : ℚ
  t_ntk_factor : ℚ
deriving DecidableEq

/-- Length of the registered buffer `seq = arange(max(len_h, len_w, len_t))`
(line 186). -/
def VideoRopePosition3DEmb.seqLen (self : VideoRopePosition3DEmb) : ℕ :=
  max (max self.len_h self.len_w) self.len_t

/-- Constructor `VideoRopePosition3DEmb.__init__` (lines 171-209): computes the axis-dim
split, runs `assert dim == dim_h + dim_w + dim_t`, then computes the three
NTK factors (raising `ZeroDivisionError` when an axis dim equals 2). -/
def VideoRopePosition3DEmb.init (ops : RealOps) (head_dim len_h len_w len_t : ℕ)
    (base_fps h_extrapolation_ratio w_extrapolation_ratio t_extrapolation_ratio : ℚ) :
    Option VideoRopePosition3DEmb :=
  if axisDimAssert head_dim then do
    let he ← ntkExponentOpt (dim_h_of head_dim)
    let we ← ntkExponentOpt (dim_w_of head_dim)
    let te ← ntkExponentOpt (dim_t_of head_dim)
    pure { head_dim := head_dim, len_h := len_h, len_w := len_w, len_t := len_t,
           base_fps := base_fps,
           h_ntk_factor := ops.rpow h_extrapolation_ratio he,
           w_ntk_factor := ops.rpow w_extrapolation_ratio we,
           t_ntk_factor := ops.rpow t_extrapolation_ratio te }
  else none

/-- Method `VideoRopePosition3DEmb.generate_embeddings` (lines 211-294, reachable
`use_TE == False` branch).  Mirrors, in order: NTK override resolution,
`theta = 10000 * ntk_factor`, the frequency bands, the two asserts, the three
half-embedding outer products (with the temporal indices divided by `fps`
under torch broadcasting and multiplied by `base_fps` when fps is present),
the `[cos, -sin, sin, cos]` stacking, the broadcast-and-concatenate along the
channel axis in order temporal, height, width (`torch.cat` checks that the
broadcast extents agree), and the final
`rearrange t h w d (i j) -> (t h w) d i j`. -/
def VideoRopePosition3DEmb.generate_embeddings (ops : RealOps)
    (self : VideoRopePosition3DEmb) (B T H W : ℕ) (fps : Fps)
    (h_ntk_factor w_ntk_factor t_ntk_factor : Option ℚ) :
    Option (List (List (List (List ℚ)))) := do
  let hNtk := h_ntk_factor.getD self.h_ntk_factor
  let wNtk := w_ntk_factor.getD self.w_ntk_factor
  let tNtk := t_ntk_factor.getD self.t_ntk_factor
  let h_spatial_freqs := freqBand ops (10000 * hNtk) (dim_h_of self.head_dim)
  let w_spatial_freqs := freqBand ops (10000 * wNtk) (dim_w_of self.head_dim)
  let temporal_freqs := freqBand ops (10000 * tNtk) (dim_t_of self.head_dim)
  let u ← uniformFpsCheck fps
  guard (u = true ∨ B = 1 ∨ T = 1)
  guard (H ≤ self.len_h ∧ W ≤ self.len_w)
  let seq := arange self.seqLen
  let half_emb_h := torchOuter (seq.take H) h_spatial_freqs
  let half_emb_w := torchOuter (seq.take W) w_spatial_freqs
  let half_emb_t ← match fps with
    | Fps.noneFps => some (torchOuter (seq.take T) temporal_freqs)
    | Fps.scalar q =>
        some (torchOuter ((seq.take T).map (fun x => x / q * self.base_fps)) temporal_freqs)
    | Fps.tensor l => do
        let scaled ← broadcastDiv (seq.take T) l
        some (torchOuter (scaled.map (fun x => x * self.base_fps)) temporal_freqs)
  let t4 := stack4 ops half_emb_t
  let h4 := stack4 ops half_emb_h
  let w4 := stack4 ops half_emb_w
  guard (t4.length = T ∧ h4.length = H ∧ w4.length = W)
  pure (t4.flatMap (fun tr => h4.flatMap (fun hr => w4.map (fun wr =>
    (tr ++ hr ++ wr).map chunk22))))

/-- The effective temporal position index used for frame `t`: unscaled when
fps is absent, `t / fps * base_fps` otherwise (with a length-1 fps tensor
broadcast to all frames and a length-T fps tensor applied elementwise). -/
def tPosIndex (base_fps : ℚ) (fps : Fps) (t : ℕ) : ℚ :=
  match fps with
  | Fps.noneFps => (t : ℚ)
  | Fps.scalar q => (t : ℚ) / q * base_fps
  | Fps.tensor l =>
      (t : ℚ) / (if l.length = 1 then l.headD 0 else l.getD t 0) * base_fps

/-- Closed-form per-position description of the rotary 3D embedding: position
`(t, h, w)` (flattened with `t` outermost, `w` innermost) carries the 2x2
rotation blocks of the temporal angles, then the height angles, then the
width angles. -/
def ropeRefModel (ops : RealOps) (self : VideoRopePosition3DEmb)
    (T H W : ℕ) (fps : Fps)
    (h_ntk_factor w_ntk_factor t_ntk_factor : Option ℚ) :
    List (List (List (List ℚ))) :=
  let hF := freqBand ops (10000 * h_ntk_factor.getD self.h_ntk_factor) (dim_h_of self.head_dim)
  let wF := freqBand ops (10000 * w_ntk_factor.getD self.w_ntk_factor) (dim_w_of self.head_dim)
  let tF := freqBand ops (10000 * t_ntk_factor.getD self.t_ntk_factor) (dim_t_of self.head_dim)
  (List.range T).flatMap (fun t : ℕ => (List.range H).flatMap (fun h : ℕ =>
    (List.range W).map (fun w : ℕ =>
      (tF.map (fun f => rotBlock ops (tPosIndex self.base_fps fps t * f)))
      ++ (hF.map (fun f => rotBlock ops ((h : ℚ) * f)))
      ++ (wF.map (fun f => rotBlock ops ((w : ℚ) * f))))))

/-- Whether the fps argument broadcasts against the length-T index vector
without a torch `RuntimeError`: absent and scalar always do; a tensor must be
non-empty and of length 1 or length T. -/
def fpsBroadcastOK (T : ℕ) : Fps → Bool
  | Fps.noneFps => true
  | Fps.scalar _ => true
  | Fps.tensor l => !l.isEmpty && (l.length == 1 || l.length == T)

/-- Preconditions under which `VideoRopePosition3DEmb.generate_embeddings`
completes: the two source asserts (H and W bounds, fps uniformity or B == 1
or T == 1) together with T not exceeding the stored index table and fps
broadcasting against the T-length index vector. -/
def ropeClaimPre (self : VideoRopePosition3DEmb) (B T H W : ℕ) (fps : Fps) : Bool :=
  decide (H ≤ self.len_h) && decide (W ≤ self.len_w) && decide (T ≤ self.seqLen)
    && (uniformFpsCheck fps == some true || B == 1 || T == 1)
    && fpsBroadcastOK T fps

/-- State registered by `MultiCameraVideoRopePosition3DEmb.__init__`
(lines 731-771): identical to the single-camera state plus `n_views`. -/
structure MultiCameraVideoRopePosition3DEmb where
  head_dim : ℕ
  len_h : ℕ
  len_w : ℕ
  len_t : ℕ
  base_fps : ℚ
  h_ntk_factor : ℚ
  w_ntk_factor : ℚ
  t_ntk_factor : ℚ
  n_views : ℕ
deriving DecidableEq

/-- Buffer `seq = arange(max(len_h, len_w, len_t))` (line 748). -/
def MultiCameraVideoRopePosition3DEmb.seqLen
    (self : MultiCameraVideoRopePosition3DEmb) : ℕ :=
  max (max self.len_h self.len_w) self.len_t

/-- Check `uniform_fps = (fps is None) or (fps.min() == fps.max())` (line 807).
Unlike the single-camera check there is no scalar case: a python scalar has
no `.min()`, so that case raises (`none`); an empty tensor raises too. -/
def uniformFpsCheckMC : Fps → Option Bool
  | Fps.noneFps => some true
  | Fps.scalar _ => none
  | Fps.tensor [] => none
  | Fps.tensor (x :: xs) => some (xs.all (fun y => y == x))

/-- Method `MultiCameraVideoRopePosition3DEmb.generate_embedding_for_batch`
(lines 773-836): same frequency bands and asserts as the single-camera
class, but `assert uniform_fps`, the image case additionally asserts
`T == 1`, the video case scales by `fps[:1]` (first element only), and the
output is `torch.cat([t, h, w] * 2, dim=-1)` — the flat duplicated-angle
`(T, H, W, head_dim)` layout, with no `[cos, -sin, sin, cos]` stacking. -/
def MultiCameraVideoRopePosition3DEmb.generate_embedding_for_batch
    (ops : RealOps) (self : MultiCameraVideoRopePosition3DEmb)
    (B T H W : ℕ) (fps : Fps)
    (h_ntk_factor w_ntk_factor t_ntk_factor : Option ℚ) :
    Option (List (List (List (List ℚ)))) := do
  let hNtk := h_ntk_factor.getD self.h_ntk_factor
  let wNtk := w_ntk_factor.getD self.w_ntk_factor
  let tNtk := t_ntk_factor.getD self.t_ntk_factor
  let h_spatial_freqs := freqBand ops (10000 * hNtk) (dim_h_of self.head_dim)
  let w_spatial_freqs := freqBand ops (10000 * wNtk) (dim_w_of self.head_dim)
  let temporal_freqs := freqBand ops (10000 * tNtk) (dim_t_of self.head_dim)
  let u ← uniformFpsCheckMC fps
  guard (u = true)
  guard (u = true ∨ B = 1 ∨ T = 1)
  guard (H ≤ self.len_h ∧ W ≤ self.len_w)
  let seq := arange self.seqLen
  let half_emb_h := torchOuter (seq.take H) h_spatial_freqs
  let half_emb_w := torchOuter (seq.take W) w_spatial_freqs
  let half_emb_t ← match fps with
    | Fps.noneFps =>
        if T = 1 then some (torchOuter (seq.take T) temporal_freqs) else none
    | Fps.scalar _ => none
    | Fps.tensor l =>
        some (torchOuter ((seq.take T).map (fun x => x / l.headD 0 * self.base_fps))
          temporal_freqs)
  guard (half_emb_t.length = T ∧ half_emb_h.length = H ∧ half_emb_w.length = W)
  pure (half_emb_t.map (fun tr => half_emb_h.map (fun hr => half_emb_w.map (fun wr =>
    tr ++ hr ++ wr ++ (tr ++ hr ++ wr)))))

/-- Method `MultiCameraVideoRopePosition3DEmb.generate_embeddings` (lines 838-877):
splits `T` as `n_views * (T // n_views)`, generates one per-view embedding
and concatenates `n_views` copies of it along the time axis (dim 0). -/
def MultiCameraVideoRopePosition3DEmb.generate_embeddings
    (ops : RealOps) (self : MultiCameraVideoRopePosition3DEmb)
    (B T H W : ℕ) (fps : Fps)
    (h_ntk_factor w_ntk_factor t_ntk_factor : Option ℚ) :
    Option (List (List (List (List ℚ)))) :=
  (self.generate_embedding_for_batch ops B (T / self.n_views) H W fps
      h_ntk_factor w_ntk_factor t_ntk_factor).map
    (fun x => (List.replicate self.n_views x).flatten)

/-- Constructor `SinCosPosEmbAxis.__init__` (lines 459-495): asserts
`interpolation in ["crop"]`, computes the axis-dim split with its sum assert,
then builds the three per-axis tables with
`get_1d_sincos_pos_embed_from_grid(dim_axis, arange(len_axis) * 1.0 / ratio)`
(which asserts each axis dim is even). -/
def SinCosPosEmbAxis.init (ops : RealOps) (interpolation : String)
    (model_channels len_h len_w len_t : ℕ)
    (h_extrapolation_ratio w_extrapolation_ratio t_extrapolation_ratio : ℚ) :
    Option (List (List ℚ) × List (List ℚ) × List (List ℚ)) :=
  if interpolation = "crop" then
    if axisDimAssert model_channels then do
      let emb_h ← get_1d_sincos_pos_embed_from_grid ops (dim_h_of model_channels)
        ((arange len_h).map (fun x => x * 1 / h_extrapolation_ratio))
      let emb_w ← get_1d_sincos_pos_embed_from_grid ops (dim_w_of model_channels)
        ((arange len_w).map (fun x => x * 1 / w_extrapolation_ratio))
      let emb_t ← get_1d_sincos_pos_embed_from_grid ops (dim_t_of model_channels)
        ((arange len_t).map (fun x => x * 1 / t_extrapolation_ratio))
      pure (emb_h, emb_w, emb_t)
    else none
  else none

/-- Method `SinCosPosEmb.generate_embeddings` in crop mode (lines 641-644):
`return self.pos_embed[:, :T, :H, :W]` where `pos_embed` has shape
`(1, len_t, len_h, len_w, C)`; python slicing clamps silently. -/
def SinCosPosEmb.generate_embeddings_crop
    (pos_embed : List (List (List (List (List ℚ))))) (T H W : ℕ) :
    List (List (List (List (List ℚ)))) :=
  pos_embed.map (fun b => (b.take T).map (fun ts => (ts.take H).map (fun hs => hs.take W)))

/-- Method `LearnableEmb3D.generate_embeddings` in crop mode (lines 363-366):
the identical `return self.pos_embed[:, :T, :H, :W]` slice. -/
def LearnableEmb3D.generate_embeddings_crop
    (pos_embed : List (List (List (List (List ℚ))))) (T H W : ℕ) :
    List (List (List (List (List ℚ)))) :=
  pos_embed.map (fun b => (b.take T).map (fun ts => (ts.take H).map (fun hs => hs.take W)))

/-- The distinct ways a python constructor in this file can terminate
abnormally. -/
inductive PyConstructionError where
  | valueErrorUnknownInterpolation : PyConstructionError
  | assertionError : PyConstructionError
  | unboundLocalParam : PyConstructionError
deriving DecidableEq

/-- Constructor `SinCosPosEmb_FPS_Aware.__init__` (lines 517-559): crop builds the
3D table with time extent `len_t * int(max_fps / min_fps)`, `"resize"` with
time extent `len_t`.  For any other interpolation string the source evaluates
`ValueError(f"Unknown interpolation method ...")` WITHOUT raising it
(line 552 has no `raise`), falls through, and line 553 then reads the local
variable `param` that was never assigned, so construction dies with
`UnboundLocalError`, not with the descriptive `ValueError`. -/
def SinCosPosEmb_FPS_Aware.init (ops : RealOps) (interpolation : String)
    (model_channels len_h len_w len_t min_fps max_fps : ℕ)
    (spatial_interpolation_scale temporal_interpolation_scale : ℚ) :
    Except PyConstructionError (List (List ℚ)) :=
  if interpolation = "crop" then
    match get_3d_sincos_pos_embed ops model_channels len_h len_w
        (len_t * (max_fps / min_fps))
        spatial_interpolation_scale temporal_interpolation_scale true with
    | some param => Except.ok param
    | none => Except.error PyConstructionError.assertionError
  else if interpolation = "resize" then
    match get_3d_sincos_pos_embed ops model_channels len_h len_w len_t
        spatial_interpolation_scale temporal_interpolation_scale true with
    | some param => Except.ok param
    | none => Except.error PyConstructionError.assertionError
  else
    Except.error PyConstructionError.unboundLocalParam

/-- Modelled from the spec: `split_inputs_cp(x, seq_dim, cp_group)` (imported
from `cosmos_transfer1.diffusion.module.parallel`, not part of this file) —
given a tensor and a sequence axis it returns the contiguous shard of this rank,
the inverse of an all-gather along that axis: rank `i` of `N` owns the `i`-th
contiguous block of size `length / N`.  Here the sharded axis is the
outermost list level. -/
def split_inputs_cp {α : Type} (xs : List α) (N i : ℕ) : List α :=
  (xs.drop (i * (xs.length / N))).take (xs.length / N)

/-- Method `VideoPositionEmb.forward` (lines 117-135) for a generator whose output
layout has the time role on axis 0 (`isinstance(self, VideoRopePosition3DEmb)`
⟹ `seq_dim = 0`): with an active context-parallel group of size `N` and rank
`i`, the time extent of the local shape is multiplied by `N`, the embedding
is generated for the global shape, and `split_inputs_cp` takes the shard of
this rank along axis 0; without a group it is a pass-through. -/
def VideoPositionEmb.forward_rope3d {α : Type}
    (gen : ℕ × ℕ × ℕ × ℕ × ℕ → List α) (cp : Option (ℕ × ℕ))
    (s : ℕ × ℕ × ℕ × ℕ × ℕ) : List α :=
  match cp with
  | none => gen s
  | some (N, i) =>
      split_inputs_cp (gen (s.1, s.2.1 * N, s.2.2.1, s.2.2.2.1, s.2.2.2.2)) N i

/-- Method `VideoPositionEmb.forward` (lines 117-135) for every other generator
(`seq_dim = 1`): the shard is taken along axis 1, i.e. along the time axis of
each batch row of the `(B, T, H, W, C)`-shaped output. -/
def VideoPositionEmb.forward_axis1 {β : Type}
    (gen : ℕ × ℕ × ℕ × ℕ × ℕ → List (List β)) (cp : Option (ℕ × ℕ))
    (s : ℕ × ℕ × ℕ × ℕ × ℕ) : List (List β) :=
  match cp with
  | none => gen s
  | some (N, i) =>
      (gen (s.1, s.2.1 * N, s.2.2.1, s.2.2.2.1, s.2.2.2.2)).map
        (fun row => split_inputs_cp row N i)

/-- Concatenation of a list of equally-batched tensors along axis 1 (the time
axis of each batch row): rank outputs are merged row by row. -/
def catDim1 {β : Type} : List (List (List β)) → List (List β)
  | [] => []
  | [p] => p
  | p :: ps => List.zipWith (fun a b => a ++ b) p (catDim1 ps)

/-- A concrete rotary state: `head_dim=12`, `len_h=len_w=len_t=8`,
`base_fps=24`, all NTK factors 1 (what
`VideoRopePosition3DEmb.init defaultOps 12 8 8 8 24 1 1 1` produces). -/
def ropeCfg8 : VideoRopePosition3DEmb :=
  { head_dim := 12, len_h := 8, len_w := 8, len_t := 8, base_fps := 24,
    h_ntk_factor := 1, w_ntk_factor := 1, t_ntk_factor := 1 }

/-- A concrete rotary state with a short index table:
`len_h = len_w = len_t = 2`. -/
def ropeCfg2 : VideoRopePosition3DEmb :=
  { head_dim := 12, len_h := 2, len_w := 2, len_t := 2, base_fps := 24,
    h_ntk_factor := 1, w_ntk_factor := 1, t_ntk_factor := 1 }

/-- A concrete multi-camera rotary state matching `ropeCfg8` with
`n_views = 2`. -/
def mcCfg : MultiCameraVideoRopePosition3DEmb :=
  { head_dim := 12, len_h := 8, len_w := 8, len_t := 8, base_fps := 24,
    h_ntk_factor := 1, w_ntk_factor := 1, t_ntk_factor := 1, n_views := 2 }

/-- The effective temporal position index of the multi-camera per-view
generator: `seq[:T] / fps[:1] * base_fps` uses only the first fps element;
the scalar case is unreachable (it raises before this point). -/
def mcTPosIndex (base_fps : ℚ) (fps : Fps) (t : ℕ) : ℚ :=
  match fps with
  | Fps.noneFps => (t : ℚ)
  | Fps.scalar _ => 0
  | Fps.tensor l => (t : ℚ) / l.headD 0 * base_fps

/-- Closed-form per-position description of the multi-camera per-view
embedding: a `(T, H, W, head_dim)` nested table whose channel row is the flat
duplicated-angle layout `t ++ h ++ w ++ (t ++ h ++ w)` (no rotation-matrix
stacking). -/
def mcForBatchRefModel (ops : RealOps) (self : MultiCameraVideoRopePosition3DEmb)
    (T H W : ℕ) (fps : Fps) (hov wov tov : Option ℚ) :
    List (List (List (List ℚ))) :=
  let hF := freqBand ops (10000 * hov.getD self.h_ntk_factor) (dim_h_of self.head_dim)
  let wF := freqBand ops (10000 * wov.getD self.w_ntk_factor) (dim_w_of self.head_dim)
  let tF := freqBand ops (10000 * tov.getD self.t_ntk_factor) (dim_t_of self.head_dim)
  (List.range T).map (fun t : ℕ => (List.range H).map (fun h : ℕ =>
    (List.range W).map (fun w : ℕ =>
      (tF.map (fun f => mcTPosIndex self.base_fps fps t * f))
      ++ (hF.map (fun f => (h : ℚ) * f))
      ++ (wF.map (fun f => (w : ℚ) * f))
      ++ ((tF.map (fun f => mcTPosIndex self.base_fps fps t * f))
          ++ (hF.map (fun f => (h : ℚ) * f))
          ++ (wF.map (fun f => (w : ℚ) * f))))))

/-- Preconditions under which the multi-camera per-view generator completes:
bounds, T within the index table, and an fps that its checks accept (absent
fps is the image case requiring `T == 1`; a scalar always raises; a tensor
must be non-empty and uniform). -/
def mcClaimPre (self : MultiCameraVideoRopePosition3DEmb) (T H W : ℕ)
    (fps : Fps) : Bool :=
  decide (H ≤ self.len_h) && decide (W ≤ self.len_w) && decide (T ≤ self.seqLen)
    && (match fps with
        | Fps.noneFps => T == 1
        | Fps.scalar _ => false
        | Fps.tensor l => !l.isEmpty && l.all (fun y => y == l.headD 0))

theorem optGuard_pos {p : Prop} [Decidable p] (h : p) :
    (guard p : Option Unit) = pure () := by
  simp [guard, if_pos h]

theorem arange_length (n : ℕ) : (arange n).length = n := by
  unfold arange
  rw [List.length_map, List.length_range]

theorem arange_take {n k : ℕ} (h : k ≤ n) : (arange n).take k = arange k := by
  unfold arange
  rw [← List.map_take, List.take_range]
  rw [Nat.min_eq_left h]

theorem length_flatMap_const {α β : Type} (l : List α) (f : α → List β) (c : ℕ)
    (h : ∀ a ∈ l, (f a).length = c) : (l.flatMap f).length = l.length * c := by
  induction l with
  | nil => simp
  | cons a l ih =>
      simp only [List.flatMap_cons, List.length_append, List.length_cons]
      rw [h a (by simp), ih (fun b hb => h b (by simp [hb]))]
      ring

/-- Claim C5 counterexample: `head_dim = 13` is not divisible by 6 (nor even),
yet `VideoRopePosition3DEmb` construction succeeds — the sum assert holds for
every `head_dim` by construction, so no divisibility failure occurs. -/
theorem videoRope_init_13_succeeds :
    (VideoRopePosition3DEmb.init defaultOps 13 8 8 8 24 1 1 1).isSome = true := by
  decide

/-- Claim C5 (amended): for every `head_dim` the split satisfies
`dim_h = dim_w = (head_dim / 6) * 2`, `dim_t = head_dim - dim_h - dim_w`, the
sum equals `head_dim` exactly and the construction-time assert always passes;
a genuine divisibility-driven construction failure exists only in
`SinCosPosEmbAxis`, whose per-axis tables require `dim_t` even, so odd
`model_channels` fails there. -/
theorem axis_dim_split_spec (dim mc len_h len_w len_t : ℕ) (ops : RealOps)
    (hr wr tr : ℚ) (hmc : mc % 2 = 1) :
    dim_h_of dim = dim / 6 * 2
    ∧ dim_w_of dim = dim_h_of dim
    ∧ dim_t_of dim = dim - dim_h_of dim - dim_w_of dim
    ∧ dim_h_of dim + dim_w_of dim + dim_t_of dim = dim
    ∧ axisDimAssert dim = true
    ∧ SinCosPosEmbAxis.init ops ("crop") mc len_h len_w len_t hr wr tr = none := by
  have hsum : dim_h_of dim + dim_w_of dim + dim_t_of dim = dim := by
    unfold dim_h_of dim_w_of dim_t_of dim_h_of; omega
  refine ⟨rfl, rfl, ?_, hsum, ?_, ?_⟩
  · unfold dim_t_of dim_w_of dim_h_of; omega
  · simp only [axisDimAssert, beq_iff_eq]; omega
  · have hodd : ¬ dim_t_of mc % 2 = 0 := by
      unfold dim_t_of dim_h_of; omega
    have heven : dim_h_of mc % 2 = 0 := by
      unfold dim_h_of; omega
    have hassert : axisDimAssert mc = true := by
      simp only [axisDimAssert, beq_iff_eq]; unfold dim_t_of dim_w_of dim_h_of; omega
    simp [SinCosPosEmbAxis.init, hassert, get_1d_sincos_pos_embed_from_grid,
      heven, dim_w_of, hodd]

/-- Claim C5 witness: at `dim = 96` and odd `mc = 7` the amended statement
evaluates as claimed. -/
theorem axis_dim_split_spec_witness :
    dim_h_of 96 = 96 / 6 * 2
    ∧ dim_w_of 96 = dim_h_of 96
    ∧ dim_t_of 96 = 96 - dim_h_of 96 - dim_w_of 96
    ∧ dim_h_of 96 + dim_w_of 96 + dim_t_of 96 = 96
    ∧ axisDimAssert 96 = true
    ∧ SinCosPosEmbAxis.init defaultOps ("crop") 7 2 2 2 1 1 1 = none :=
  axis_dim_split_spec 96 7 2 2 2 defaultOps 1 1 1 (by decide)

theorem getD_map_lt {α β : Type} [Inhabited β] (l : List α) (f : α → β) (d : β) (da : α)
    (i : ℕ) (h : i < l.length) : (l.map f).getD i d = f (l.getD i da) := by
  rw [List.getD_eq_getElem _ _ (by simpa using h), List.getD_eq_getElem _ _ h,
    List.getElem_map]

theorem getD_append_lt {α : Type} (a b : List α) (d : α) (i : ℕ) (h : i < a.length) :
    (a ++ b).getD i d = a.getD i d := by
  rw [List.getD_eq_getElem _ _ (by simp; omega), List.getD_eq_getElem _ _ h,
    List.getElem_append_left]

theorem getD_append_shift {α : Type} (a b : List α) (d : α) (i : ℕ) (h : i < b.length) :
    (a ++ b).getD (a.length + i) d = b.getD i d := by
  rw [List.getD_eq_getElem _ _ (by simp; omega), List.getD_eq_getElem _ _ h]
  rw [List.getElem_append_right (by omega)]
  congr 1
  omega

theorem getD_range_lt (n i d : ℕ) (h : i < n) : (List.range n).getD i d = i := by
  rw [List.getD_eq_getElem _ _ (by simpa using h), List.getElem_range]

/-- Claim C6: for even `embed_dim` the 1D sinusoidal table has one row per
position, each row of width `embed_dim` with the first half
`sin(pos * omega_k)` and the second half `cos(pos * omega_k)` where
`omega_k = 1 / 10000 ** (2k / embed_dim)`; for odd `embed_dim` the call
fails (the `assert embed_dim % 2 == 0`). -/
theorem get_1d_sincos_spec (ops : RealOps) (D : ℕ) (pos : List ℚ) (m k : ℕ)
    (hD : D % 2 = 0) (hm : m < pos.length) (hk : k < D / 2) :
    ((get_1d_sincos_pos_embed_from_grid ops D pos).getD []).length = pos.length
    ∧ (((get_1d_sincos_pos_embed_from_grid ops D pos).getD []).getD m []).length = D
    ∧ (((get_1d_sincos_pos_embed_from_grid ops D pos).getD []).getD m []).getD k 0
        = ops.rsin (pos.getD m 0 * (1 / ops.rpow 10000 (((2 * k : ℕ) : ℚ) / (D : ℚ))))
    ∧ (((get_1d_sincos_pos_embed_from_grid ops D pos).getD []).getD m []).getD (D / 2 + k) 0
        = ops.rcos (pos.getD m 0 * (1 / ops.rpow 10000 (((2 * k : ℕ) : ℚ) / (D : ℚ))))
    ∧ (∀ Dodd : ℕ, Dodd % 2 = 1 → get_1d_sincos_pos_embed_from_grid ops Dodd pos = none) := by
  have homega : ∀ j : ℕ, j < D / 2 →
      (((List.range (D / 2)).map
        (fun j2 : ℕ => 1 / ops.rpow 10000 ((j2 : ℚ) / ((D / 2 : ℕ) : ℚ)))).getD j 0)
        = 1 / ops.rpow 10000 (((2 * j : ℕ) : ℚ) / (D : ℚ)) := by
    intro j hj
    rw [getD_map_lt _ _ _ 0 _ (by simpa using hj), getD_range_lt _ _ _ hj]
    have hD2 : (D : ℚ) = 2 * ((D / 2 : ℕ) : ℚ) := by
      exact_mod_cast congrArg (Nat.cast : ℕ → ℚ) (show D = 2 * (D / 2) by omega)
    rw [hD2]
    push_cast
    rw [mul_div_mul_left _ _ (two_ne_zero)]
  have hrow : ((get_1d_sincos_pos_embed_from_grid ops D pos).getD []).getD m []
      = (((List.range (D / 2)).map
          (fun j : ℕ => 1 / ops.rpow 10000 ((j : ℚ) / ((D / 2 : ℕ) : ℚ)))).map
            (fun w => ops.rsin (pos.getD m 0 * w)))
        ++ (((List.range (D / 2)).map
          (fun j : ℕ => 1 / ops.rpow 10000 ((j : ℚ) / ((D / 2 : ℕ) : ℚ)))).map
            (fun w => ops.rcos (pos.getD m 0 * w))) := by
    simp only [get_1d_sincos_pos_embed_from_grid, if_pos hD, Option.getD_some]
    rw [getD_map_lt _ _ _ 0 _ hm]
  refine ⟨?_, ?_, ?_, ?_, ?_⟩
  · simp [get_1d_sincos_pos_embed_from_grid, if_pos hD]
  · rw [hrow]
    simp only [List.length_append, List.length_map, List.length_range]
    omega
  · rw [hrow, getD_append_lt _ _ _ _ (by simp; omega),
      getD_map_lt _ _ _ 0 _ (by simpa using hk), homega k hk]
  · rw [hrow]
    have hlen : D / 2 + k = ((((List.range (D / 2)).map
        (fun j : ℕ => 1 / ops.rpow 10000 ((j : ℚ) / ((D / 2 : ℕ) : ℚ)))).map
          (fun w => ops.rsin (pos.getD m 0 * w)))).length + k := by
      simp
    rw [hlen, getD_append_shift _ _ _ _ (by simp; omega),
      getD_map_lt _ _ _ 0 _ (by simpa using hk), homega k hk]
  · intro Dodd hodd
    have hne : ¬ Dodd % 2 = 0 := by omega
    simp [get_1d_sincos_pos_embed_from_grid, hne]

/-- Claim C6 witness: `D = 4`, `pos = [5]`, `m = 0`, `k = 1`. -/
theorem get_1d_sincos_spec_witness :
    ((get_1d_sincos_pos_embed_from_grid defaultOps 4 [5]).getD []).length = [(5 : ℚ)].length
    ∧ (((get_1d_sincos_pos_embed_from_grid defaultOps 4 [5]).getD []).getD 0 []).length = 4
    ∧ (((get_1d_sincos_pos_embed_from_grid defaultOps 4 [5]).getD []).getD 0 []).getD 1 0
        = defaultOps.rsin (([(5 : ℚ)].getD 0 0) * (1 / defaultOps.rpow 10000 (((2 * 1 : ℕ) : ℚ) / ((4 : ℕ) : ℚ))))
    ∧ (((get_1d_sincos_pos_embed_from_grid defaultOps 4 [5]).getD []).getD 0 []).getD (4 / 2 + 1) 0
        = defaultOps.rcos (([(5 : ℚ)].getD 0 0) * (1 / defaultOps.rpow 10000 (((2 * 1 : ℕ) : ℚ) / ((4 : ℕ) : ℚ))))
    ∧ (∀ Dodd : ℕ, Dodd % 2 = 1 →
        get_1d_sincos_pos_embed_from_grid defaultOps Dodd [5] = none) :=
  get_1d_sincos_spec defaultOps 4 [5] 0 1 (by decide) (by decide) (by decide)

/-- Claim C9: for an unknown interpolation string,
`SinCosPosEmb_FPS_Aware.__init__` does NOT report the descriptive
configuration error — the `ValueError` is constructed but never raised, and
construction instead dies reading the unassigned local `param`. -/
theorem sincos_fps_aware_unknown_interpolation_bug :
    SinCosPosEmb_FPS_Aware.init defaultOps ("bilinear") 12 2 2 2 1 2 1 1
        = Except.error PyConstructionError.unboundLocalParam
    ∧ PyConstructionError.unboundLocalParam
        ≠ PyConstructionError.valueErrorUnknownInterpolation := by
  exact ⟨rfl, by decide⟩

/-- Claim C10: in crop mode, when the requested T exceeds the stored time
extent, both `SinCosPosEmb.generate_embeddings` and
`LearnableEmb3D.generate_embeddings` silently return the whole stored time
axis (the `take` clamps), so the output is smaller than requested and no
failure occurs. -/
theorem crop_overrun_returns_stored_axis (tb : List (List (List (List ℚ))))
    (T H W : ℕ) (h : tb.length < T) :
    SinCosPosEmb.generate_embeddings_crop [tb] T H W
        = [tb.map (fun ts => (ts.take H).map (fun hs => hs.take W))]
    ∧ LearnableEmb3D.generate_embeddings_crop [tb] T H W
        = [tb.map (fun ts => (ts.take H).map (fun hs => hs.take W))]
    ∧ ((SinCosPosEmb.generate_embeddings_crop [tb] T H W).getD 0 []).length = tb.length
    ∧ tb.length < T := by
  have htake : tb.take T = tb := List.take_of_length_le (le_of_lt h)
  refine ⟨?_, ?_, ?_, h⟩ <;>
    simp [SinCosPosEmb.generate_embeddings_crop,
      LearnableEmb3D.generate_embeddings_crop, htake] <;>
    omega

/-- Claim C10 witness: a stored table with one time row, requested `T = 3`. -/
theorem crop_overrun_returns_stored_axis_witness :
    SinCosPosEmb.generate_embeddings_crop [[[[[(1 : ℚ)]]]]] 3 1 1
        = [([[[[(1 : ℚ)]]]] : List (List (List (List ℚ)))).map
            (fun ts => (ts.take 1).map (fun hs => hs.take 1))]
    ∧ LearnableEmb3D.generate_embeddings_crop [[[[[(1 : ℚ)]]]]] 3 1 1
        = [([[[[(1 : ℚ)]]]] : List (List (List (List ℚ)))).map
            (fun ts => (ts.take 1).map (fun hs => hs.take 1))]
    ∧ ((SinCosPosEmb.generate_embeddings_crop [[[[[(1 : ℚ)]]]]] 3 1 1).getD 0 []).length
        = ([[[[(1 : ℚ)]]]] : List (List (List (List ℚ)))).length
    ∧ ([[[[(1 : ℚ)]]]] : List (List (List (List ℚ)))).length < 3 :=
  crop_overrun_returns_stored_axis [[[[(1 : ℚ)]]]] 3 1 1 (by decide)

/-- Claim C4: the reachable (`use_TE == False`) temporal-scaling path divides
`seq[:T]` (length T) elementwise by the fps tensor (length B); for a uniform
per-batch fps tensor with `B = 2`, `T = 3` the torch broadcast fails, so
generation raises instead of producing
`outer(indices * base_fps / fps, temporal_freqs)` — contradicting the
assert message of the source itself (which allows uniform-fps video batches) and the
`fps[:1]` usage of the disabled TE branch and of the multi-camera variant. -/
theorem rope_fps_tensor_broadcast_bug :
    VideoRopePosition3DEmb.generate_embeddings defaultOps ropeCfg8 2 3 1 1
      (Fps.tensor [24, 24]) none none none = none := by
  decide

/-- Claim C8 counterexample: with fps absent and `T = 2 > 1` the rotary
generator does NOT fail — the reachable branch has no `T == 1` assert. -/
theorem rope_fps_none_T2_succeeds :
    (VideoRopePosition3DEmb.generate_embeddings defaultOps ropeCfg8 1 2 1 1
      Fps.noneFps none none none).isSome = true := by
  decide

/-- Claim C1 counterexample: the input `B=1, T=3, H=W=1` with fps absent
satisfies every precondition listed by the claim (H and W within bounds, fps
uniform), yet generation fails, because `T = 3` exceeds the stored index
table `seq = arange(max(len_h, len_w, len_t)) = arange(2)` and the silently
truncated temporal half-embedding no longer matches the `t = T` extent that
`torch.cat` requires. -/
theorem rope_T_exceeds_seq_table_fails :
    VideoRopePosition3DEmb.generate_embeddings defaultOps ropeCfg2 1 3 1 1
      Fps.noneFps none none none = none := by
  decide

/-- Claim C7: for a non-square grid (`grid_h = 2`, `grid_w = 3`,
`grid_t = 1`) the flattened 3D table does NOT place the embedding of
position `(h, w, t)` at row `h*(W*T) + w*T + t`: `np.meshgrid(grid_w,
grid_h, grid_t, "ij")` yields `(W, H, T)`-shaped meshes that are *reshaped*
(not transposed) to `(H, W, T)`, scrambling the two spatial coordinates
whenever `H ≠ W` (additionally `emb_h` is fed the width mesh and `emb_w`
the height mesh), while the downstream rearrange in `SinCosPosEmb.__init__`
assumes the claimed row order.  At row 2 — position `(h, w, t) = (0, 2, 0)`
— the first channel block encodes position value 1 instead of 0. -/
theorem get_3d_row_order_bug :
    get_3d_sincos_pos_embed defaultOps 6 2 3 1 1 1 true
      ≠ sincos3dRowSpec defaultOps 6 2 3 1 1 1 := by
  intro hEq
  have h2 := congrArg (fun o => (((o.getD []).getD 2 []).getD 0 0 : ℚ)) hEq
  simp only [get_3d_sincos_pos_embed, sincos3dRowSpec,
    get_1d_sincos_pos_embed_from_grid, meshFlat0, meshFlat1, meshFlat2,
    arange, defaultOps, List.range_succ, List.range_zero,
    List.replicate_succ, List.flatten_cons] at h2
  norm_num [List.replicate_succ, List.flatten_cons, List.getElem_cons_succ,
    List.getElem_cons_zero, List.cons_append, List.nil_append] at h2

theorem optGuard_eq_some {p : Prop} [Decidable p] {u : Unit} :
    (guard p : Option Unit) = some u ↔ p := by
  by_cases hp : p <;> simp [guard, hp]

theorem split_concat {α : Type} (N k : ℕ) :
    ∀ xs : List α, 0 < N → xs.length = N * k →
      ((List.range N).map (fun i => split_inputs_cp xs N i)).flatten = xs := by
  induction N with
  | zero => intro xs h _; exact absurd h (lt_irrefl 0)
  | succ n ih =>
      intro xs _ hlen
      have hsize : xs.length / (n + 1) = k := by
        rw [hlen]; exact Nat.mul_div_cancel_left k (Nat.succ_pos n)
      rw [List.range_succ_eq_map, List.map_cons, List.flatten_cons, List.map_map]
      have hhead : split_inputs_cp xs (n + 1) 0 = xs.take k := by
        simp [split_inputs_cp, hsize]
      rw [hhead]
      rcases Nat.eq_zero_or_pos n with hn | hn
      · subst hn
        simp only [List.range_zero, List.map_nil, List.flatten_nil, List.append_nil]
        exact List.take_of_length_le (by omega)
      · have hlen2 : (xs.drop k).length = n * k := by
          simp only [List.length_drop, hlen]
          ring_nf
          omega
        have hsize2 : (xs.drop k).length / n = k := by
          rw [hlen2]; exact Nat.mul_div_cancel_left k hn
        have htail : ∀ i : ℕ,
            ((fun i => split_inputs_cp xs (n + 1) i) ∘ (fun i => i + 1)) i
              = split_inputs_cp (xs.drop k) n i := by
          intro i
          simp only [Function.comp_apply, split_inputs_cp, hsize, hsize2]
          rw [List.drop_drop]
          congr 2
          ring
        rw [List.map_congr_left (fun i _ => htail i), ih (xs.drop k) hn hlen2,
          List.take_append_drop]

theorem catDim1_map_nil {ι β : Type} (l : List ι) :
    catDim1 (l.map (fun _ => ([] : List (List β)))) = [] := by
  induction l with
  | nil => rfl
  | cons a l ih =>
      cases l with
      | nil => rfl
      | cons b l2 => simp [catDim1]

theorem catDim1_map_cons {ι β : Type} (l : List ι) (hl : l ≠ [])
    (x : ι → List β) (ys : ι → List (List β)) :
    catDim1 (l.map (fun i => x i :: ys i))
      = ((l.map x).flatten) :: catDim1 (l.map ys) := by
  induction l with
  | nil => exact absurd rfl hl
  | cons a l ih =>
      cases l with
      | nil => simp [catDim1]
      | cons b l2 =>
          simp only [List.map_cons, catDim1, List.flatten_cons]
          rw [show (x b :: ys b) :: l2.map (fun i => x i :: ys i)
              = (b :: l2).map (fun i => x i :: ys i) by simp]
          rw [ih (by simp)]
          simp [catDim1, List.zipWith]

theorem catDim1_rows_split {β : Type} (N k : ℕ) (hN : 0 < N) :
    ∀ rows : List (List β), (∀ r ∈ rows, r.length = N * k) →
      catDim1 ((List.range N).map (fun i => rows.map (fun r => split_inputs_cp r N i)))
        = rows := by
  intro rows
  induction rows with
  | nil => intro _; exact catDim1_map_nil (List.range N)
  | cons r rows ih =>
      intro hall
      have hl : List.range N ≠ [] := by
        simp [List.range_eq_nil]
        omega
      rw [show (fun i => (r :: rows).map (fun r2 => split_inputs_cp r2 N i))
          = (fun i => split_inputs_cp r N i :: rows.map (fun r2 => split_inputs_cp r2 N i)) by
          funext i; simp]
      rw [catDim1_map_cons (List.range N) hl _ _]
      rw [split_concat N k r hN (hall r (by simp))]
      rw [ih (fun r2 h2 => hall r2 (by simp [h2]))]

/-- Claim C2: with an active context-parallel group of size `N` (and the
spec-modelled contiguous-block `split_inputs_cp`), concatenating the `N`
per-rank `forward` outputs along the sharded axis — axis 0 for the rotary
generator, axis 1 for the additive generators — reproduces exactly
`generate_embeddings` applied to the global shape `(B, T*N, H, W, C)`, for
every generator whose global output is evenly divisible along that axis. -/
theorem forward_cp_shard_consistency {α β : Type}
    (genR : ℕ × ℕ × ℕ × ℕ × ℕ → List α)
    (genA : ℕ × ℕ × ℕ × ℕ × ℕ → List (List β))
    (N B T H W C kR kA : ℕ) (hN : 0 < N)
    (hR : (genR (B, T * N, H, W, C)).length = N * kR)
    (hA : ∀ r ∈ genA (B, T * N, H, W, C), r.length = N * kA) :
    ((List.range N).map (fun i =>
        VideoPositionEmb.forward_rope3d genR (some (N, i)) (B, T, H, W, C))).flatten
      = genR (B, T * N, H, W, C)
    ∧ catDim1 ((List.range N).map (fun i =>
        VideoPositionEmb.forward_axis1 genA (some (N, i)) (B, T, H, W, C)))
      = genA (B, T * N, H, W, C) := by
  constructor
  · simp only [VideoPositionEmb.forward_rope3d]
    exact split_concat N kR _ hN hR
  · simp only [VideoPositionEmb.forward_axis1]
    exact catDim1_rows_split N kA hN _ hA

theorem forward_cp_shard_consistency_witness :
    ((List.range 2).map (fun i =>
        VideoPositionEmb.forward_rope3d (fun s => List.range s.2.1) (some (2, i))
          (1, 3, 1, 1, 1))).flatten
      = (fun s : ℕ × ℕ × ℕ × ℕ × ℕ => List.range s.2.1) (1, 3 * 2, 1, 1, 1)
    ∧ catDim1 ((List.range 2).map (fun i =>
        VideoPositionEmb.forward_axis1 (fun s => [List.range s.2.1]) (some (2, i))
          (1, 3, 1, 1, 1)))
      = (fun s : ℕ × ℕ × ℕ × ℕ × ℕ => [List.range s.2.1]) (1, 3 * 2, 1, 1, 1) :=
  forward_cp_shard_consistency (fun s => List.range s.2.1) (fun s => [List.range s.2.1])
    2 1 3 1 1 1 3 3 (by decide) (by decide) (by decide)

theorem flatten_replicate_length {α : Type} (V : ℕ) (x : List α) :
    ((List.replicate V x).flatten).length = V * x.length := by
  induction V with
  | zero => simp
  | succ n ih => simp [List.replicate_succ, ih, Nat.succ_mul, Nat.add_comm]

theorem flatten_replicate_segment {α : Type} :
    ∀ (i V : ℕ) (x : List α), i < V →
      ((((List.replicate V x).flatten).drop (i * x.length)).take x.length) = x := by
  intro i
  induction i with
  | zero =>
      intro V x hV
      cases V with
      | zero => omega
      | succ v =>
          simp only [List.replicate_succ, List.flatten_cons, Nat.zero_mul, List.drop_zero]
          rw [List.take_left]
  | succ i ih =>
      intro V x hV
      cases V with
      | zero => omega
      | succ v =>
          simp only [List.replicate_succ, List.flatten_cons]
          rw [show (i + 1) * x.length = x.length + i * x.length by ring]
          rw [List.drop_append]
          exact ih v x (by omega)



theorem stack4_outer (ops : RealOps) (a F : List ℚ) :
    stack4 ops (torchOuter a F)
      = a.map (fun x => F.map (fun f =>
          [ops.rcos (x * f), -ops.rsin (x * f), ops.rsin (x * f), ops.rcos (x * f)])) := by
  simp [stack4, torchOuter, List.map_map]

theorem stack4_length (ops : RealOps) (m : List (List ℚ)) :
    (stack4 ops m).length = m.length := by
  simp [stack4]

theorem torchOuter_length (a b : List ℚ) : (torchOuter a b).length = a.length := by
  simp [torchOuter]

theorem optGuard_trivial : (guard True : Option Unit) = pure () := by
  simp [guard]


theorem flatMap_congr_mem {α β : Type} (l : List α) (f g : α → List β)
    (h : ∀ a ∈ l, f a = g a) : l.flatMap f = l.flatMap g := by
  induction l with
  | nil => rfl
  | cons a l ih =>
      simp only [List.flatMap_cons, h a (by simp)]
      rw [ih (fun b hb => h b (by simp [hb]))]

theorem chunk22_quad (a b c d : ℚ) : chunk22 [a, b, c, d] = [[a, b], [c, d]] := rfl

theorem broadcastDiv_arange (T : ℕ) (l : List ℚ) (hne : l ≠ [])
    (hlen : l.length = 1 ∨ l.length = T) :
    broadcastDiv (arange T) l
      = some ((List.range T).map (fun t : ℕ =>
          (t : ℚ) / (if l.length = 1 then l.headD 0 else l.getD t 0))) := by
  by_cases h1 : l.length = 1
  · obtain ⟨a, rfl⟩ : ∃ a, l = [a] := by
      cases l with
      | nil => simp at h1
      | cons a as =>
          cases as with
          | nil => exact ⟨a, rfl⟩
          | cons b bs => simp at h1
    by_cases hT1 : T = 1
    · subst hT1
      simp [broadcastDiv, arange, List.range_succ]
    · simp [broadcastDiv, arange, List.map_map, hT1, Function.comp_def]
  · have hlT : l.length = T := hlen.resolve_left h1
    have heq : (arange T).length = l.length := by rw [arange_length, hlT]
    simp only [broadcastDiv, if_pos heq]
    congr 1
    apply List.ext_getElem
    · simp [arange_length, hlT]
    · intro i hi1 hi2
      rw [List.getElem_zipWith]
      simp only [arange, List.getElem_map, List.getElem_range, if_neg h1]
      rw [List.getD_eq_getElem l 0 (by rw [hlT]; simp [arange_length, hlT] at hi1; omega)]

theorem rope_generate_eq (ops : RealOps) (self : VideoRopePosition3DEmb)
    (B T H W : ℕ) (fps : Fps) (hov wov tov : Option ℚ)
    (hpre : ropeClaimPre self B T H W fps = true) :
    VideoRopePosition3DEmb.generate_embeddings ops self B T H W fps hov wov tov
      = some (ropeRefModel ops self T H W fps hov wov tov) := by
  simp only [ropeClaimPre, Bool.and_eq_true, decide_eq_true_eq, Bool.or_eq_true,
    beq_iff_eq] at hpre
  obtain ⟨⟨⟨⟨hH, hW⟩, hT⟩, hassert⟩, hbc⟩ := hpre
  have hHs : H ≤ self.seqLen := le_trans hH (by unfold VideoRopePosition3DEmb.seqLen; omega)
  have hWs : W ≤ self.seqLen := le_trans hW (by unfold VideoRopePosition3DEmb.seqLen; omega)
  cases fps with
  | noneFps =>
      have g2 : (guard (H ≤ self.len_h ∧ W ≤ self.len_w) : Option Unit) = pure () :=
        optGuard_pos ⟨hH, hW⟩
      simp only [VideoRopePosition3DEmb.generate_embeddings, uniformFpsCheck,
        Option.bind_eq_bind, Option.some_bind, g2, Option.pure_def,
        arange_take hT, arange_take hHs, arange_take hWs,
        stack4_length, torchOuter_length, arange_length, true_or, eq_self_iff_true,
        and_self, optGuard_trivial, Option.some_bind]
      congr 1
      rw [stack4_outer, stack4_outer, stack4_outer]
      simp only [arange, List.flatMap_map, List.map_map, ropeRefModel]
      apply flatMap_congr_mem
      intro t ht
      apply flatMap_congr_mem
      intro h hh
      apply List.map_congr_left
      intro w hw
      simp [Function.comp_def, List.map_append, List.map_map, chunk22_quad, rotBlock,
        tPosIndex]
  | scalar q =>
      have g2 : (guard (H ≤ self.len_h ∧ W ≤ self.len_w) : Option Unit) = pure () :=
        optGuard_pos ⟨hH, hW⟩
      simp only [VideoRopePosition3DEmb.generate_embeddings, uniformFpsCheck,
        Option.bind_eq_bind, Option.some_bind, g2, Option.pure_def,
        arange_take hT, arange_take hHs, arange_take hWs,
        stack4_length, torchOuter_length, arange_length, List.length_map, true_or,
        eq_self_iff_true, and_self, optGuard_trivial, Option.some_bind]
      congr 1
      rw [stack4_outer, stack4_outer, stack4_outer]
      simp only [arange, List.flatMap_map, List.map_map, ropeRefModel]
      apply flatMap_congr_mem
      intro t ht
      apply flatMap_congr_mem
      intro h hh
      apply List.map_congr_left
      intro w hw
      simp [Function.comp_def, List.map_append, List.map_map, chunk22_quad, rotBlock,
        tPosIndex]
  | tensor l =>
      simp only [fpsBroadcastOK, Bool.and_eq_true, Bool.not_eq_true',
        List.isEmpty_eq_false, Bool.or_eq_true, beq_iff_eq] at hbc
      obtain ⟨hne, hlen⟩ := hbc
      obtain ⟨a, as, rfl⟩ : ∃ a as, l = a :: as := by
        cases l with
        | nil => exact absurd rfl hne
        | cons a as => exact ⟨a, as, rfl⟩
      have hprop : ((as.all (fun y => y == a)) = true ∨ B = 1 ∨ T = 1) := by
        rcases hassert with (h | h) | h
        · left
          simpa [uniformFpsCheck] using h
        · right; left; exact h
        · right; right; exact h
      have g1 : (guard ((as.all (fun y => y == a)) = true ∨ B = 1 ∨ T = 1) : Option Unit)
          = pure () := optGuard_pos hprop
      have g2 : (guard (H ≤ self.len_h ∧ W ≤ self.len_w) : Option Unit) = pure () :=
        optGuard_pos ⟨hH, hW⟩
      simp only [VideoRopePosition3DEmb.generate_embeddings, uniformFpsCheck,
        Option.bind_eq_bind, Option.some_bind, g1, g2, Option.pure_def,
        arange_take hT, arange_take hHs, arange_take hWs,
        broadcastDiv_arange T (a :: as) hne hlen, Option.some_bind,
        stack4_length, torchOuter_length, arange_length, List.length_map,
        List.length_range, eq_self_iff_true, and_self, optGuard_trivial]
      congr 1
      rw [stack4_outer, stack4_outer, stack4_outer]
      simp only [arange, List.flatMap_map, List.map_map, ropeRefModel]
      apply flatMap_congr_mem
      intro t ht
      apply flatMap_congr_mem
      intro h hh
      apply List.map_congr_left
      intro w hw
      simp [Function.comp_def, List.map_append, List.map_map, chunk22_quad, rotBlock,
        tPosIndex]

/-- Evaluation of the multi-camera per-view generator under its
preconditions: it returns the flat duplicated-angle `(T, H, W, head_dim)`
table `mcForBatchRefModel`. -/
theorem mc_for_batch_eq (ops : RealOps) (self : MultiCameraVideoRopePosition3DEmb)
    (B T H W : ℕ) (fps : Fps) (hov wov tov : Option ℚ)
    (hpre : mcClaimPre self T H W fps = true) :
    self.generate_embedding_for_batch ops B T H W fps hov wov tov
      = some (mcForBatchRefModel ops self T H W fps hov wov tov) := by
  simp only [mcClaimPre, Bool.and_eq_true, decide_eq_true_eq] at hpre
  obtain ⟨⟨⟨hH, hW⟩, hT⟩, hfps⟩ := hpre
  have hHs : H ≤ self.seqLen :=
    le_trans hH (by unfold MultiCameraVideoRopePosition3DEmb.seqLen; omega)
  have hWs : W ≤ self.seqLen :=
    le_trans hW (by unfold MultiCameraVideoRopePosition3DEmb.seqLen; omega)
  have g2 : (guard (H ≤ self.len_h ∧ W ≤ self.len_w) : Option Unit) = pure () :=
    optGuard_pos ⟨hH, hW⟩
  cases fps with
  | noneFps =>
      have hT1 : T = 1 := by simpa using hfps
      simp only [MultiCameraVideoRopePosition3DEmb.generate_embedding_for_batch,
        uniformFpsCheckMC, Option.bind_eq_bind, Option.some_bind, g2,
        Option.pure_def, eq_self_iff_true, true_or, or_true, optGuard_trivial,
        Option.some_bind, if_pos hT1, arange_take hT, arange_take hHs,
        arange_take hWs, torchOuter_length, arange_length, and_self]
      congr 1
      simp only [torchOuter, arange, List.map_map, mcForBatchRefModel]
      apply List.map_congr_left
      intro t ht
      apply List.map_congr_left
      intro h hh
      apply List.map_congr_left
      intro w hw
      simp [Function.comp_def, mcTPosIndex]
  | scalar q => simp at hfps
  | tensor l =>
      obtain ⟨a, as, rfl⟩ : ∃ a as, l = a :: as := by
        cases l with
        | nil => simp at hfps
        | cons a as => exact ⟨a, as, rfl⟩
      have hall : as.all (fun y => y == a) = true := by
        simp only [Bool.and_eq_true, Bool.not_eq_true', List.isEmpty_eq_false] at hfps
        simpa using hfps.2
      have g1 : (guard ((as.all (fun y => y == a)) = true) : Option Unit) = pure () :=
        optGuard_pos hall
      have g1b : (guard ((as.all (fun y => y == a)) = true ∨ B = 1 ∨ T = 1) : Option Unit)
          = pure () := optGuard_pos (Or.inl hall)
      simp only [MultiCameraVideoRopePosition3DEmb.generate_embedding_for_batch,
        uniformFpsCheckMC, Option.bind_eq_bind, Option.some_bind, g1, g1b, g2,
        Option.pure_def, optGuard_trivial, Option.some_bind, arange_take hT,
        arange_take hHs, arange_take hWs,
        torchOuter_length, arange_length, List.length_map, eq_self_iff_true, and_self,
        optGuard_trivial]
      congr 1
      simp only [torchOuter, arange, List.map_map, mcForBatchRefModel]
      apply List.map_congr_left
      intro t ht
      apply List.map_congr_left
      intro h hh
      apply List.map_congr_left
      intro w hw
      simp [Function.comp_def, mcTPosIndex]

/-- Claim C3 (amended): for `T = n_views * T0` the multi-camera generator
returns `n_views` copies of the per-view embedding concatenated along the
time axis; the time axis has length `n_views * T0` and each contiguous
per-view-length segment equals `generate_embedding_for_batch` applied to the
per-view shape.  That per-view tensor is the flat duplicated-angle
`(T0, H, W, head_dim)` layout, NOT the `(T0*H*W, head_dim/2, 2, 2)`
rotation-matrix output of the single-camera
`VideoRopePosition3DEmb.generate_embeddings`. -/
theorem multicam_time_concat (ops : RealOps)
    (self : MultiCameraVideoRopePosition3DEmb) (B T0 H W : ℕ) (fps : Fps)
    (hov wov tov : Option ℚ) (hV : 0 < self.n_views)
    (hpre : mcClaimPre self T0 H W fps = true) :
    self.generate_embeddings ops B (self.n_views * T0) H W fps hov wov tov
      = some ((List.replicate self.n_views
          (mcForBatchRefModel ops self T0 H W fps hov wov tov)).flatten)
    ∧ (mcForBatchRefModel ops self T0 H W fps hov wov tov).length = T0
    ∧ ((List.replicate self.n_views
          (mcForBatchRefModel ops self T0 H W fps hov wov tov)).flatten).length
        = self.n_views * T0
    ∧ (∀ i, i < self.n_views →
        (((List.replicate self.n_views
            (mcForBatchRefModel ops self T0 H W fps hov wov tov)).flatten).drop
              (i * (mcForBatchRefModel ops self T0 H W fps hov wov tov).length)).take
            (mcForBatchRefModel ops self T0 H W fps hov wov tov).length
          = mcForBatchRefModel ops self T0 H W fps hov wov tov) := by
  have hlen : (mcForBatchRefModel ops self T0 H W fps hov wov tov).length = T0 := by
    simp [mcForBatchRefModel]
  have hdiv : self.n_views * T0 / self.n_views = T0 :=
    Nat.mul_div_cancel_left T0 hV
  refine ⟨?_, hlen, ?_, fun i hi => flatten_replicate_segment i _ _ hi⟩
  · simp only [MultiCameraVideoRopePosition3DEmb.generate_embeddings, hdiv,
      mc_for_batch_eq ops self B T0 H W fps hov wov tov hpre]
    rfl
  · rw [flatten_replicate_length, hlen]

/-- Claim C3 counterexample: with `head_dim = 12`, `n_views = 2`,
`T0 = 1`, `H = W = 1`, fps absent and the same NTK factors, the first
per-view segment of the multi-camera output differs from the single-camera
`VideoRopePosition3DEmb.generate_embeddings` output for the per-view shape:
the former is a `(1, 1, 1, 12)` duplicated-angle table, the latter a
`(1, 6, 2, 2)` rotation-matrix table. -/
theorem multicam_segment_ne_single_camera :
    (MultiCameraVideoRopePosition3DEmb.generate_embeddings defaultOps mcCfg 1 2 1 1
        Fps.noneFps none none none).map (fun o => o.take 1)
      ≠ VideoRopePosition3DEmb.generate_embeddings defaultOps ropeCfg8 1 1 1 1
          Fps.noneFps none none none := by
  have hmc := mc_for_batch_eq defaultOps mcCfg 1 1 1 1 Fps.noneFps none none none
    (by decide)
  have hrope := rope_generate_eq defaultOps ropeCfg8 1 1 1 1 Fps.noneFps none none none
    (by decide)
  intro hEq
  simp only [MultiCameraVideoRopePosition3DEmb.generate_embeddings] at hEq
  norm_num [show mcCfg.n_views = 2 from rfl] at hEq
  rw [hmc, hrope] at hEq
  have h2 := congrArg (fun o => ((o.getD []).getD 0 []).length) hEq
  simp only [Option.map_some, Option.getD_some, mcForBatchRefModel, ropeRefModel,
    freqBand, List.range_succ, List.range_zero, List.replicate_succ,
    List.replicate_zero, List.flatten_cons, List.flatten_nil] at h2
  norm_num [show ropeCfg8.head_dim = 12 from rfl, show dim_h_of 12 = 4 from rfl,
    show dim_w_of 12 = 4 from rfl, show dim_t_of 12 = 4 from rfl] at h2

theorem length_flatMap_flatMap_map {α : Type} (T H W : ℕ) (f : ℕ → ℕ → ℕ → α) :
    ((List.range T).flatMap (fun t => (List.range H).flatMap (fun h =>
      (List.range W).map (f t h)))).length = T * H * W := by
  rw [length_flatMap_const _ _ (H * W)]
  · simp [mul_assoc]
  · intro t _
    rw [length_flatMap_const _ _ W]
    · simp
    · intro h _
      simp

/-- Claim C1 (amended): under the preconditions of the claim (`H ≤ max_h`,
`W ≤ max_w`, fps uniform or `B = 1` or `T = 1`) strengthened by the two
further conditions the code in fact requires — `T` within the stored index
table `arange(max(len_h, len_w, len_t))`, and an fps that broadcasts against
the length-T index vector (absent, scalar, or a non-empty tensor of length 1
or T) — the rotary generator returns the `(T*H*W, head_dim/2, 2, 2)` tensor
whose row for position `(t, h, w)` (flattened with `t` outermost, `w`
innermost) is the list of 2x2 rotation blocks `[[cos, -sin], [sin, cos]]` of
the temporal angles, then the height angles, then the width angles, exactly
in that channel order. -/
theorem rope_rotation_matrix_layout (ops : RealOps)
    (self : VideoRopePosition3DEmb) (B T H W : ℕ) (fps : Fps)
    (hov wov tov : Option ℚ) (hpre : ropeClaimPre self B T H W fps = true) :
    VideoRopePosition3DEmb.generate_embeddings ops self B T H W fps hov wov tov
      = some (ropeRefModel ops self T H W fps hov wov tov)
    ∧ (ropeRefModel ops self T H W fps hov wov tov).length = T * H * W := by
  refine ⟨rope_generate_eq ops self B T H W fps hov wov tov hpre, ?_⟩
  simp only [ropeRefModel]
  exact length_flatMap_flatMap_map T H W _

/-- Claim C1 witness: `ropeCfg8`, `B=1, T=2, H=2, W=1`, scalar fps 30. -/
theorem rope_rotation_matrix_layout_witness :
    VideoRopePosition3DEmb.generate_embeddings defaultOps ropeCfg8 1 2 2 1
        (Fps.scalar 30) none none none
      = some (ropeRefModel defaultOps ropeCfg8 2 2 1 (Fps.scalar 30) none none none)
    ∧ (ropeRefModel defaultOps ropeCfg8 2 2 1 (Fps.scalar 30) none none none).length
        = 2 * 2 * 1 :=
  rope_rotation_matrix_layout defaultOps ropeCfg8 1 2 2 1 (Fps.scalar 30)
    none none none (by decide)

/-- Claim C8 (amended): with fps absent, the reachable (`use_TE == False`)
path has no `T == 1` check: for every `T > 1` within the table bound the
generation succeeds, and the temporal position indices are the unscaled
`seq[:T]` (`tPosIndex` is the identity when fps is absent). -/
theorem rope_fps_none_succeeds_unscaled (ops : RealOps)
    (self : VideoRopePosition3DEmb) (B T H W : ℕ) (hov wov tov : Option ℚ)
    (hT1 : 1 < T) (hH : H ≤ self.len_h) (hW : W ≤ self.len_w)
    (hT : T ≤ self.seqLen) :
    VideoRopePosition3DEmb.generate_embeddings ops self B T H W Fps.noneFps hov wov tov
      = some (ropeRefModel ops self T H W Fps.noneFps hov wov tov)
    ∧ (∀ t : ℕ, tPosIndex self.base_fps Fps.noneFps t = (t : ℚ)) := by
  refine ⟨?_, fun t => rfl⟩
  apply rope_generate_eq
  simp [ropeClaimPre, uniformFpsCheck, fpsBroadcastOK, hH, hW, hT]

/-- Claim C8 witness: `ropeCfg8`, `T = 3 > 1`, fps absent. -/
theorem rope_fps_none_succeeds_unscaled_witness :
    VideoRopePosition3DEmb.generate_embeddings defaultOps ropeCfg8 1 3 1 1
        Fps.noneFps none none none
      = some (ropeRefModel defaultOps ropeCfg8 3 1 1 Fps.noneFps none none none)
    ∧ tPosIndex ropeCfg8.base_fps Fps.noneFps 5 = ((5 : ℕ) : ℚ) :=
  ⟨(rope_fps_none_succeeds_unscaled defaultOps ropeCfg8 1 3 1 1 none none none
      (by decide) (by decide) (by decide) (by decide)).1,
   (rope_fps_none_succeeds_unscaled defaultOps ropeCfg8 1 3 1 1 none none none
      (by decide) (by decide) (by decide) (by decide)).2 5⟩

/-- Claim C3 witness: `mcCfg` (`n_views = 2`), per-view time `T0 = 1`,
fps absent; the segment instance is taken at view index 1. -/
theorem multicam_time_concat_witness :
    MultiCameraVideoRopePosition3DEmb.generate_embeddings defaultOps mcCfg 1
        (mcCfg.n_views * 1) 1 1 Fps.noneFps none none none
      = some ((List.replicate mcCfg.n_views
          (mcForBatchRefModel defaultOps mcCfg 1 1 1 Fps.noneFps none none none)).flatten)
    ∧ (mcForBatchRefModel defaultOps mcCfg 1 1 1 Fps.noneFps none none none).length = 1
    ∧ (((List.replicate mcCfg.n_views
          (mcForBatchRefModel defaultOps mcCfg 1 1 1 Fps.noneFps none none none)).flatten).drop
            (1 * (mcForBatchRefModel defaultOps mcCfg 1 1 1 Fps.noneFps none none none).length)).take
          (mcForBatchRefModel defaultOps mcCfg 1 1 1 Fps.noneFps none none none).length
        = mcForBatchRefModel defaultOps mcCfg 1 1 1 Fps.noneFps none none none :=
  ⟨(multicam_time_concat defaultOps mcCfg 1 1 1 1 Fps.noneFps none none none
      (by decide) (by decide)).1,
   (multicam_time_concat defaultOps mcCfg 1 1 1 1 Fps.noneFps none none none
      (by decide) (by decide)).2.1,
   (multicam_time_concat defaultOps mcCfg 1 1 1 1 Fps.noneFps none none none
      (by decide) (by decide)).2.2.2 1 (by decide)⟩
